import Mathlib

/-!
Verification of the flanking-geometry subsystem of `src/module/canvas/token.ts`:
the distance engine (`TokenPF2e#distanceTo`) and the flank geometry evaluator
(`TokenPF2e#canFlank`, `TokenPF2e#isFlanking`).

Coordinates and pixel lengths are embedded as rationals; the one place the code
produces an irrational value (the Euclidean distance between two separated
rectangles) is embedded in `ℝ` via `Real.sqrt`.  The JavaScript `NaN` sentinel
returned by `distanceTo` when no grid context exists is embedded as `none` in
an `Option`-valued result, and the JavaScript comparison `reach >= NaN` (which
is always false) is embedded by `geNaN`.
-/

namespace PF2e

/-- A 2D point `{x, y}` in scene-length units. -/
structure Point where
  x : ℚ
  y : ℚ
deriving DecidableEq

/-- An axis-aligned rectangle, mirroring `PIXI.Rectangle(x, y, width, height)`. -/
structure Rectangle where
  x : ℚ
  y : ℚ
  width : ℚ
  height : ℚ
deriving DecidableEq

def Rectangle.left (r : Rectangle) : ℚ := r.x

def Rectangle.top (r : Rectangle) : ℚ := r.y

def Rectangle.right (r : Rectangle) : ℚ := r.x + r.width

def Rectangle.bottom (r : Rectangle) : ℚ := r.y + r.height

/-- The data of a token's actor that the flanking subsystem reads: its `type`
string, whether it is a `CreaturePF2e`, the `hasPlayerOwner` flag (kept
optional to honor the source's `?? false`), `canAttack`, and the result of
`getReach({ to: "attack" })`. -/
structure Actor where
  type : String
  isCreature : Bool
  hasPlayerOwner : Option Bool
  canAttack : Bool
  reachAttack : ℚ
deriving DecidableEq

/-- A placed token: identity, top-left corner `(x, y)`, pixel width `w` and
height `h`, and an optional associated actor.  The `id` field makes the
embedding's structural equality model JavaScript reference equality
(`===`/`!==`): distinct placed objects carry distinct ids. -/
structure Token where
  id : ℕ
  x : ℚ
  y : ℚ
  w : ℚ
  h : ℚ
  actor : Option Actor
deriving DecidableEq

/-- Host-engine accessor: a token's `position` is its top-left corner. -/
def Token.position (t : Token) : Point := ⟨t.x, t.y⟩

/-- Host-engine accessor: a token's `center` is offset from the top-left
corner by half its width and height. -/
def Token.center (t : Token) : Point := ⟨t.x + t.w / 2, t.y + t.h / 2⟩

/-- Host-engine accessor: a token's `bounds` rectangle. -/
def Token.bounds (t : Token) : Rectangle := ⟨t.x, t.y, t.w, t.h⟩

/-- The part of `canvas.dimensions` the subsystem reads: the grid cell size. -/
structure Dimensions where
  size : ℚ
deriving DecidableEq

/-- The canvas state the subsystem reads: `canvas.dimensions` (absent when the
scene is not ready), `canvas.grid.type`, the host grid's point-to-point
`measureDistance` used on non-square grids (an external collaborator), and
`canvas.tokens.placeables`. -/
structure Canvas where
  dimensions : Option Dimensions
  gridType : ℕ
  gridMeasure : Point → Point → ℚ
  placeables : List Token

/-- `CONST.GRID_TYPES.SQUARE` in the host engine's numeric enum. -/
def GRID_TYPES_SQUARE : ℕ := 1

/-! ## Distance engine -/

/-- Two closed rectangles overlap or touch. -/
def rectsOverlapOrTouch (r0 r1 : Rectangle) : Bool :=
  decide (r0.left ≤ r1.right) && decide (r1.left ≤ r0.right) &&
    decide (r0.top ≤ r1.bottom) && decide (r1.top ≤ r0.bottom)

/-- Horizontal gap between two rectangles (zero when their x-ranges meet). -/
def rectGapX (r0 r1 : Rectangle) : ℚ :=
  max 0 (max (r0.left - r1.right) (r1.left - r0.right))

/-- Vertical gap between two rectangles (zero when their y-ranges meet). -/
def rectGapY (r0 r1 : Rectangle) : ℚ :=
  max 0 (max (r0.top - r1.bottom) (r1.top - r0.bottom))

/-- Modelled from the spec: `MeasuredTemplatePF2e.measureDistanceRect` is
repository code that is not among the provided sources.  Per the spec it
returns zero if the two rectangles overlap or touch, and otherwise the
Euclidean distance between the nearest corner/edge pair, converted to
grid-distance units via the grid context's cell size. -/
noncomputable def measureDistanceRect (r0 r1 : Rectangle) (dims : Dimensions) : ℝ :=
  if rectsOverlapOrTouch r0 r1 then 0
  else Real.sqrt ((rectGapX r0 r1 ^ 2 + rectGapY r0 r1 ^ 2 : ℚ) : ℝ) / (dims.size : ℝ)

/-- The inset rectangle built by `distanceTo`:
`new PIXI.Rectangle(token.x + gridSize / 2, token.y + gridSize / 2, token.w - gridSize, token.h - gridSize)`. -/
def tokenRect (dims : Dimensions) (t : Token) : Rectangle :=
  ⟨t.x + dims.size / 2, t.y + dims.size / 2, t.w - dims.size, t.h - dims.size⟩

/-- `TokenPF2e#distanceTo`.  Returns `none` for the `NaN` sentinel when
`canvas.dimensions` is unavailable; on a non-square grid it delegates to the
host grid's point-to-point measurement on the two tokens' `position`s; on a
square grid it measures between the two inset rectangles.  The source also
accepts a `reach` option, which it forwards to the rectangle measurement; the
spec-modelled measurement does not use it. -/
noncomputable def distanceTo (cv : Canvas) (self target : Token) : Option ℝ :=
  match cv.dimensions with
  | none => none
  | some dims =>
    if cv.gridType ≠ GRID_TYPES_SQUARE then
      some ((cv.gridMeasure self.position target.position : ℚ) : ℝ)
    else
      some (measureDistanceRect (tokenRect dims self) (tokenRect dims target) dims)

/-! ## Host-engine geometry utilities

`foundry.utils.lineSegmentIntersects` and `foundry.utils.lineCircleIntersection`
are host-engine collaborators (not repository code).  They are modelled here
from the spec's descriptions of the two arrangement tests. -/

/-- Twice the signed area of the triangle `a b c`; positive when the points
wind counterclockwise, zero when collinear. -/
def orient2d (a b c : Point) : ℚ :=
  (a.y - c.y) * (b.x - c.x) - (a.x - c.x) * (b.y - c.y)

/-- Modelled from the spec: the host utility deciding whether segment `a`–`b`
crosses segment `c`–`d`, as the standard orientation-based crossing test
(fully collinear configurations are rejected, endpoint contact is allowed). -/
def lineSegmentIntersects (a b c d : Point) : Bool :=
  if orient2d a b c = 0 ∧ orient2d a b d = 0 then false
  else
    decide (orient2d a b c * orient2d a b d ≤ 0) &&
      decide (orient2d c d a * orient2d c d b ≤ 0)

/-- Squared Euclidean distance between two points. -/
def distSqPts (p q : Point) : ℚ := (p.x - q.x) ^ 2 + (p.y - q.y) ^ 2

/-- Clamp a parameter into the unit interval. -/
def clamp01 (t : ℚ) : ℚ := max 0 (min 1 t)

/-- Parameter of the orthogonal projection of `c` onto the line through `a`
and `b` (zero when the segment is degenerate, via rational division by zero). -/
def segParam (a b c : Point) : ℚ :=
  ((c.x - a.x) * (b.x - a.x) + (c.y - a.y) * (b.y - a.y)) /
    ((b.x - a.x) ^ 2 + (b.y - a.y) ^ 2)

/-- Squared distance from the point `c` to the segment `a`–`b`, via the
clamped projection parameter. -/
def segPointDistSq (a b c : Point) : ℚ :=
  (a.x + clamp01 (segParam a b c) * (b.x - a.x) - c.x) ^ 2 +
    (a.y + clamp01 (segParam a b c) * (b.y - a.y) - c.y) ^ 2

/-- Modelled from the spec: the host's `lineCircleIntersection` applied to the
segment `a`–`b` and the circle of radius `r` about `c` reports more than zero
intersection points exactly when the segment meets the circle's boundary: the
segment comes within `r` of the center while at least one endpoint is at
distance at least `r` (the squared distance from `c` along the segment is a
convex quadratic, so its minimum is the clamped projection and its maximum is
attained at an endpoint). -/
def segmentMeetsCircle (a b c : Point) (r : ℚ) : Bool :=
  decide (segPointDistSq a b c ≤ r ^ 2) &&
    decide (r ^ 2 ≤ max (distSqPts a c) (distSqPts b c))

/-! ## Flank geometry evaluator -/

/-- The guard `this.actor && ["character", "npc"].includes(this.actor.type)`. -/
def actorTypeFlankCapable (t : Token) : Bool :=
  match t.actor with
  | some a => ["character", "npc"].contains a.type
  | none => false

/-- The guard `flankee.actor instanceof CreaturePF2e` (false on a missing
actor, as `instanceof` is on `null`). -/
def actorIsCreature (t : Token) : Bool :=
  match t.actor with
  | some a => a.isCreature
  | none => false

/-- The per-token player-allegiance flag `t.actor!.hasPlayerOwner ?? false`,
read as `false` when the actor itself is absent. -/
def hasPlayerAllegiance (t : Token) : Bool :=
  match t.actor with
  | some a => a.hasPlayerOwner.getD false
  | none => false

/-- JavaScript `reach >= d` against a possibly-`NaN` distance: every
comparison against `NaN` (embedded as `none`) is false. -/
noncomputable def geNaN (reach : ℚ) (d : Option ℝ) : Bool :=
  match d with
  | none => false
  | some x => decide ((reach : ℝ) ≥ x)

/-- `TokenPF2e#canFlank`, with the two non-null actor dereferences in the
allied-tokens check made explicit: the result is `none` exactly when the
source's `t.actor!` assertions would dereference a missing actor. -/
noncomputable def canFlankE (cv : Canvas) (self flankee : Token) : Option Bool :=
  if self = flankee then some false
  else if !actorTypeFlankCapable self then some false
  else if !actorIsCreature flankee then some false
  else
    match self.actor, flankee.actor with
    | some sa, some fa =>
      if (sa.hasPlayerOwner.getD false && fa.hasPlayerOwner.getD false) ||
          !(sa.hasPlayerOwner.getD false || fa.hasPlayerOwner.getD false) then
        some false
      else
        some (sa.canAttack && geNaN sa.reachAttack (distanceTo cv self flankee))
    | _, _ => none

/-- `TokenPF2e#canFlank` as the boolean the caller observes. -/
noncomputable def canFlank (cv : Canvas) (self flankee : Token) : Bool :=
  (canFlankE cv self flankee).getD false

/-- The opposite-corners test: the segment between the flankers' centers meets
the radius-1 circle about the flankee's center in more than zero points. -/
def areOnOppositeCorners (flankerA flankerB flankee : Token) : Bool :=
  segmentMeetsCircle flankerA.center flankerB.center flankee.center 1

/-- The opposite-sides test: the segment between the flankers' centers crosses
both the left and right edges of the flankee's bounds, or both the top and
bottom edges. -/
def areOnOppositeSides (flankerA flankerB flankee : Token) : Bool :=
  (lineSegmentIntersects flankerA.center flankerB.center
      ⟨flankee.bounds.left, flankee.bounds.top⟩ ⟨flankee.bounds.left, flankee.bounds.bottom⟩ &&
    lineSegmentIntersects flankerA.center flankerB.center
      ⟨flankee.bounds.right, flankee.bounds.top⟩ ⟨flankee.bounds.right, flankee.bounds.bottom⟩) ||
  (lineSegmentIntersects flankerA.center flankerB.center
      ⟨flankee.bounds.left, flankee.bounds.top⟩ ⟨flankee.bounds.right, flankee.bounds.top⟩ &&
    lineSegmentIntersects flankerA.center flankerB.center
      ⟨flankee.bounds.left, flankee.bounds.bottom⟩ ⟨flankee.bounds.right, flankee.bounds.bottom⟩)

/-- Two flankers are in a flanking arrangement around the flankee when either
test succeeds. -/
def isAFlankingArrangement (flankerA flankerB flankee : Token) : Bool :=
  areOnOppositeCorners flankerA flankerB flankee ||
    areOnOppositeSides flankerA flankerB flankee

/-- `TokenPF2e#isFlanking`: the token must itself be able to flank the
flankee, and some other placed token must both be able to flank the flankee
and stand in a flanking arrangement with this token. -/
noncomputable def isFlanking (cv : Canvas) (self flankee : Token) : Bool :=
  canFlank cv self flankee &&
    cv.placeables.any fun t =>
      decide (t ≠ self) && canFlank cv t flankee && isAFlankingArrangement self t flankee

/-! ## Spec-side definitions

Definitions written from the spec's sentences, to be compared with the
source-derived path through `distanceTo`. -/

/-- The spec's inset rectangle: the participant's footprint shrunk by half a
grid cell on all sides. -/
def specInsetRect (dims : Dimensions) (t : Token) : Rectangle :=
  ⟨t.bounds.left + dims.size / 2, t.bounds.top + dims.size / 2,
    (t.bounds.right - dims.size / 2) - (t.bounds.left + dims.size / 2),
    (t.bounds.bottom - dims.size / 2) - (t.bounds.top + dims.size / 2)⟩

/-- The spec's minimum rectangle distance: zero if the rectangles overlap or
touch, otherwise the Euclidean distance between the nearest corner/edge pair
converted to grid-distance units via the cell size. -/
noncomputable def specRectDistance (r0 r1 : Rectangle) (dims : Dimensions) : ℝ :=
  if rectsOverlapOrTouch r0 r1 then 0
  else Real.sqrt ((rectGapX r0 r1 ^ 2 + rectGapY r0 r1 ^ 2 : ℚ) : ℝ) / (dims.size : ℝ)

/-- Two rectangles overlap (share interior points). -/
def rectsOverlap (r0 r1 : Rectangle) : Bool :=
  decide (r0.left < r1.right) && decide (r1.left < r0.right) &&
    decide (r0.top < r1.bottom) && decide (r1.top < r0.bottom)

/-- Two rectangles are disjoint: strictly separated along an axis. -/
def rectsDisjoint (r0 r1 : Rectangle) : Bool :=
  decide (r0.right < r1.left) || decide (r1.right < r0.left) ||
    decide (r0.bottom < r1.top) || decide (r1.bottom < r0.top)

/-! ## Helper lemmas -/

theorem rectsOverlapOrTouch_comm (r0 r1 : Rectangle) :
    rectsOverlapOrTouch r0 r1 = rectsOverlapOrTouch r1 r0 := by
  simp only [rectsOverlapOrTouch]
  rw [Bool.eq_iff_iff]
  simp only [Bool.and_eq_true, decide_eq_true_eq]
  tauto

theorem rectGapX_comm (r0 r1 : Rectangle) : rectGapX r0 r1 = rectGapX r1 r0 := by
  unfold rectGapX
  rw [max_comm (r0.left - r1.right)]

theorem rectGapY_comm (r0 r1 : Rectangle) : rectGapY r0 r1 = rectGapY r1 r0 := by
  unfold rectGapY
  rw [max_comm (r0.top - r1.bottom)]

theorem rectGapX_nonneg (r0 r1 : Rectangle) : 0 ≤ rectGapX r0 r1 := le_max_left 0 _

theorem rectGapY_nonneg (r0 r1 : Rectangle) : 0 ≤ rectGapY r0 r1 := le_max_left 0 _

theorem orient2d_swap (a b c : Point) : orient2d b a c = -orient2d a b c := by
  unfold orient2d
  ring

theorem lineSegmentIntersects_swap (a b c d : Point) :
    lineSegmentIntersects b a c d = lineSegmentIntersects a b c d := by
  unfold lineSegmentIntersects
  rw [orient2d_swap a b c, orient2d_swap a b d, mul_comm (orient2d c d b) (orient2d c d a)]
  simp [neg_mul_neg, neg_eq_zero]

theorem clamp01_one_sub (t : ℚ) : clamp01 (1 - t) = 1 - clamp01 t := by
  unfold clamp01
  rw [max_def, min_def, max_def, min_def]
  split_ifs <;> linarith

theorem segPointDistSq_swap (a b c : Point) : segPointDistSq b a c = segPointDistSq a b c := by
  by_cases hD : (b.x - a.x) ^ 2 + (b.y - a.y) ^ 2 = 0
  · have hbx : b.x = a.x := by nlinarith [sq_nonneg (b.x - a.x), sq_nonneg (b.y - a.y)]
    have hby : b.y = a.y := by nlinarith [sq_nonneg (b.x - a.x), sq_nonneg (b.y - a.y)]
    unfold segPointDistSq segParam
    rw [hbx, hby]
  · have hD2 : (a.x - b.x) ^ 2 + (a.y - b.y) ^ 2 ≠ 0 := fun h => hD (by nlinarith)
    have hswap : segParam b a c = 1 - segParam a b c := by
      unfold segParam
      rw [eq_sub_iff_add_eq, div_add_div _ _ hD2 hD, div_eq_one_iff_eq (by
        intro h
        exact hD (by nlinarith))]
      ring
    unfold segPointDistSq
    rw [hswap, clamp01_one_sub]
    ring

theorem canFlank_eq_true_iff (cv : Canvas) (s f : Token) :
    canFlank cv s f = true ↔
      s ≠ f ∧ actorTypeFlankCapable s = true ∧ actorIsCreature f = true ∧
        hasPlayerAllegiance s = !hasPlayerAllegiance f ∧
        ∃ sa, s.actor = some sa ∧ sa.canAttack = true ∧
          geNaN sa.reachAttack (distanceTo cv s f) = true := by
  unfold canFlank canFlankE hasPlayerAllegiance
  by_cases h1 : s = f
  · simp [h1]
  rw [if_neg h1]
  by_cases h2 : actorTypeFlankCapable s = true
  swap
  · rw [if_pos (by simp [Bool.not_eq_true] at h2 ⊢; exact h2)]
    simp [h1, h2]
  rw [if_neg (by simp [h2])]
  by_cases h3 : actorIsCreature f = true
  swap
  · rw [if_pos (by simp [Bool.not_eq_true] at h3 ⊢; exact h3)]
    simp [h1, h3]
  rw [if_neg (by simp [h3])]
  cases hsa : s.actor with
  | none => rw [actorTypeFlankCapable, hsa] at h2; exact absurd h2 (by simp)
  | some sa =>
    cases hfa : f.actor with
    | none => rw [actorIsCreature, hfa] at h3; exact absurd h3 (by simp)
    | some fa =>
      simp only [h1, h2, h3, ne_eq, not_false_iff, true_and, Option.some.injEq]
      cases hx : sa.hasPlayerOwner.getD false <;> cases hy : fa.hasPlayerOwner.getD false <;>
        simp [hx, hy, Bool.and_eq_true, and_assoc]

/-! ## Claims -/

/-- C6: the rectangle distance measurement is symmetric in its two rectangle
inputs, returns 0 when the two rectangles overlap, and returns a strictly
positive value when they are disjoint (for a positive grid cell size). -/
theorem measureDistanceRect_symm_zero_pos (dims : Dimensions) (r0 r1 : Rectangle) :
    measureDistanceRect r0 r1 dims = measureDistanceRect r1 r0 dims ∧
      (rectsOverlap r0 r1 = true → measureDistanceRect r0 r1 dims = 0) ∧
      (rectsDisjoint r0 r1 = true → 0 < dims.size →
        0 < measureDistanceRect r0 r1 dims) := by
  refine ⟨?_, ?_, ?_⟩
  · unfold measureDistanceRect
    rw [rectsOverlapOrTouch_comm, rectGapX_comm, rectGapY_comm]
  · intro h
    simp only [rectsOverlap, Bool.and_eq_true, decide_eq_true_eq] at h
    have h' : rectsOverlapOrTouch r0 r1 = true := by
      simp only [rectsOverlapOrTouch, Bool.and_eq_true, decide_eq_true_eq]
      exact ⟨⟨⟨le_of_lt h.1.1.1, le_of_lt h.1.1.2⟩, le_of_lt h.1.2⟩, le_of_lt h.2⟩
    simp [measureDistanceRect, h']
  · intro h hs
    simp only [rectsDisjoint, Bool.or_eq_true, decide_eq_true_eq] at h
    have hno : ¬(rectsOverlapOrTouch r0 r1 = true) := by
      simp only [rectsOverlapOrTouch, Bool.and_eq_true, decide_eq_true_eq]
      rintro ⟨⟨⟨h1, h2⟩, h3⟩, h4⟩
      rcases h with ((h | h) | h) | h <;> linarith
    have hgap : 0 < rectGapX r0 r1 ∨ 0 < rectGapY r0 r1 := by
      have hx1 : r1.left - r0.right ≤ rectGapX r0 r1 :=
        le_trans (le_max_right _ _) (le_max_right 0 _)
      have hx0 : r0.left - r1.right ≤ rectGapX r0 r1 :=
        le_trans (le_max_left _ _) (le_max_right 0 _)
      have hy1 : r1.top - r0.bottom ≤ rectGapY r0 r1 :=
        le_trans (le_max_right _ _) (le_max_right 0 _)
      have hy0 : r0.top - r1.bottom ≤ rectGapY r0 r1 :=
        le_trans (le_max_left _ _) (le_max_right 0 _)
      rcases h with ((h | h) | h) | h
      · exact Or.inl (lt_of_lt_of_le (by linarith) hx1)
      · exact Or.inl (lt_of_lt_of_le (by linarith) hx0)
      · exact Or.inr (lt_of_lt_of_le (by linarith) hy1)
      · exact Or.inr (lt_of_lt_of_le (by linarith) hy0)
    rw [measureDistanceRect, if_neg hno]
    apply div_pos
    · rw [Real.sqrt_pos]
      have hq : (0 : ℚ) < rectGapX r0 r1 ^ 2 + rectGapY r0 r1 ^ 2 := by
        rcases hgap with hg | hg
        · exact add_pos_of_pos_of_nonneg (pow_pos hg 2) (sq_nonneg _)
        · exact add_pos_of_nonneg_of_pos (sq_nonneg _) (pow_pos hg 2)
      exact_mod_cast hq
    · exact_mod_cast hs

/-- C8: the flanking-arrangement predicate is symmetric in the two flankers:
the opposite-corners test, the opposite-sides test, and their disjunction each
give the same verdict for `(A, B, F)` as for `(B, A, F)`. -/
theorem flankingArrangement_symm (A B F : Token) :
    areOnOppositeCorners A B F = areOnOppositeCorners B A F ∧
      areOnOppositeSides A B F = areOnOppositeSides B A F ∧
      isAFlankingArrangement A B F = isAFlankingArrangement B A F := by
  have hc : areOnOppositeCorners A B F = areOnOppositeCorners B A F := by
    unfold areOnOppositeCorners segmentMeetsCircle
    rw [segPointDistSq_swap A.center B.center F.center,
      max_comm (distSqPts B.center F.center) (distSqPts A.center F.center)]
  have hs : areOnOppositeSides A B F = areOnOppositeSides B A F := by
    unfold areOnOppositeSides
    simp only [lineSegmentIntersects_swap A.center B.center]
  exact ⟨hc, hs, by unfold isAFlankingArrangement; rw [hc, hs]⟩

/-- C2 (amended): on a non-square grid, `distanceTo` ignores both footprints
and returns the external point-to-point grid distance between the two
participants' positions, i.e. their top-left corners (not their centers). -/
theorem distanceTo_nonsquare_positions (cv : Canvas) (a b : Token) (dims : Dimensions)
    (hdims : cv.dimensions = some dims) (hty : cv.gridType ≠ GRID_TYPES_SQUARE) :
    distanceTo cv a b = some ((cv.gridMeasure a.position b.position : ℚ) : ℝ) := by
  unfold distanceTo
  rw [hdims]
  simp [hty]

/-- C2 counterexample: with a concrete point-to-point measurement on a
non-square grid, `distanceTo` does not return the grid distance between the
two tokens' centers; it measures between their top-left positions. -/
theorem distanceTo_nonsquare_not_centers :
    distanceTo ⟨some ⟨2⟩, 0, fun p q => q.x - p.x + (q.y - p.y), []⟩
        ⟨1, 0, 0, 2, 2, none⟩ ⟨2, 10, 0, 4, 4, none⟩ ≠
      some (((Canvas.mk (some ⟨2⟩) 0 (fun p q => q.x - p.x + (q.y - p.y)) []).gridMeasure
          (Token.center ⟨1, 0, 0, 2, 2, none⟩) (Token.center ⟨2, 10, 0, 4, 4, none⟩) : ℚ) : ℝ) := by
  norm_num [distanceTo, Token.position, Token.center, GRID_TYPES_SQUARE]

/-- C2 witness: the amended claim evaluated on the same concrete non-square
canvas gives the top-left-to-top-left measurement. -/
theorem distanceTo_nonsquare_positions_witness :
    distanceTo ⟨some ⟨2⟩, 0, fun p q => q.x - p.x + (q.y - p.y), []⟩
        ⟨1, 0, 0, 2, 2, none⟩ ⟨2, 10, 0, 4, 4, none⟩ = some ((10 : ℚ) : ℝ) := by
  rw [distanceTo_nonsquare_positions _ _ _ ⟨2⟩ rfl (by decide)]
  simp only [Token.position, Option.some.injEq, Rat.cast_inj]
  norm_num

/-- C3: when the grid context is unavailable, `distanceTo` returns the NaN
sentinel, and every `canFlank` call on that canvas returns false (the reach
comparison against the sentinel fails). -/
theorem distanceTo_no_grid_context (cv : Canvas) (a b : Token)
    (hdims : cv.dimensions = none) :
    distanceTo cv a b = none ∧ ∀ s f : Token, canFlank cv s f = false := by
  have hd : ∀ x y : Token, distanceTo cv x y = none := fun x y => by
    unfold distanceTo; rw [hdims]
  refine ⟨hd a b, fun s f => ?_⟩
  cases hb : canFlank cv s f with
  | false => rfl
  | true =>
    obtain ⟨-, -, -, -, sa, -, -, hge⟩ := (canFlank_eq_true_iff cv s f).mp hb
    rw [hd s f] at hge
    simp [geNaN] at hge

/-- C3 witness: a concrete canvas with no dimensions gives the sentinel and a
false `canFlank` verdict for two otherwise-flank-capable opposed tokens. -/
theorem distanceTo_no_grid_context_witness :
    distanceTo ⟨none, 1, fun _ _ => 0, []⟩ ⟨1, 0, 0, 2, 2, some ⟨"character", true, some true, true, 5⟩⟩
        ⟨2, 4, 0, 2, 2, some ⟨"npc", true, some false, true, 5⟩⟩ = none ∧
      canFlank ⟨none, 1, fun _ _ => 0, []⟩ ⟨1, 0, 0, 2, 2, some ⟨"character", true, some true, true, 5⟩⟩
        ⟨2, 4, 0, 2, 2, some ⟨"npc", true, some false, true, 5⟩⟩ = false := by
  have h := distanceTo_no_grid_context ⟨none, 1, fun _ _ => 0, []⟩
    ⟨1, 0, 0, 2, 2, some ⟨"character", true, some true, true, 5⟩⟩
    ⟨2, 4, 0, 2, 2, some ⟨"npc", true, some false, true, 5⟩⟩ rfl
  exact ⟨h.1, h.2 _ _⟩

/-- C4: two tokens carrying identical player-allegiance flags (absent read as
false) never satisfy `canFlank`, regardless of reach, category, or geometry. -/
theorem canFlank_allied_false (cv : Canvas) (a b : Token)
    (h : hasPlayerAllegiance a = hasPlayerAllegiance b) :
    canFlank cv a b = false := by
  cases hb : canFlank cv a b with
  | false => rfl
  | true =>
    obtain ⟨-, -, -, hpa, -⟩ := (canFlank_eq_true_iff cv a b).mp hb
    rw [h] at hpa
    exact absurd hpa (by cases hasPlayerAllegiance b <;> simp)

/-- C4 witness: two adjacent non-player tokens with matching categories and
ample reach still cannot flank each other. -/
theorem canFlank_allied_false_witness :
    canFlank ⟨some ⟨2⟩, 1, fun _ _ => 0, []⟩
        ⟨1, 0, 0, 2, 2, some ⟨"npc", true, some false, true, 5⟩⟩
        ⟨2, 4, 0, 2, 2, some ⟨"npc", true, some false, true, 5⟩⟩ = false :=
  canFlank_allied_false _ _ _ (by decide)

/-- C5: on a square grid `distanceTo` builds each participant's inset
rectangle (footprint shrunk by half a cell on all sides) and returns the
spec's minimum rectangle distance between the two inset rectangles. -/
theorem distanceTo_square_inset (cv : Canvas) (a b : Token) (dims : Dimensions)
    (hdims : cv.dimensions = some dims) (hty : cv.gridType = GRID_TYPES_SQUARE) :
    distanceTo cv a b =
      some (specRectDistance (specInsetRect dims a) (specInsetRect dims b) dims) ∧
      tokenRect dims a = specInsetRect dims a := by
  have hins : ∀ t : Token, tokenRect dims t = specInsetRect dims t := by
    intro t
    simp only [tokenRect, specInsetRect, Token.bounds, Rectangle.left, Rectangle.top,
      Rectangle.right, Rectangle.bottom, Rectangle.mk.injEq]
    refine ⟨trivial, trivial, by ring, by ring⟩
  refine ⟨?_, hins a⟩
  simp only [distanceTo, hdims]
  rw [if_neg (by simp [hty]), hins a, hins b]
  rfl

/-- C5 witness: the square-grid inset measurement evaluated on two concrete
tokens one cell apart. -/
theorem distanceTo_square_inset_witness :
    distanceTo ⟨some ⟨2⟩, 1, fun _ _ => 0, []⟩ ⟨1, 0, 0, 2, 2, none⟩ ⟨2, 4, 0, 2, 2, none⟩ =
      some (specRectDistance (specInsetRect ⟨2⟩ ⟨1, 0, 0, 2, 2, none⟩)
        (specInsetRect ⟨2⟩ ⟨2, 4, 0, 2, 2, none⟩) ⟨2⟩) :=
  (distanceTo_square_inset _ _ _ ⟨2⟩ rfl rfl).1

/-- C6 witness: concrete evaluations — symmetry on an overlapping pair, zero
on that overlapping pair, and strict positivity on a separated pair. -/
theorem measureDistanceRect_symm_zero_pos_witness :
    measureDistanceRect ⟨0, 0, 2, 2⟩ ⟨1, 1, 2, 2⟩ ⟨2⟩ =
        measureDistanceRect ⟨1, 1, 2, 2⟩ ⟨0, 0, 2, 2⟩ ⟨2⟩ ∧
      measureDistanceRect ⟨0, 0, 2, 2⟩ ⟨1, 1, 2, 2⟩ ⟨2⟩ = 0 ∧
      0 < measureDistanceRect ⟨0, 0, 2, 2⟩ ⟨10, 0, 2, 2⟩ ⟨2⟩ :=
  ⟨(measureDistanceRect_symm_zero_pos ⟨2⟩ ⟨0, 0, 2, 2⟩ ⟨1, 1, 2, 2⟩).1,
    (measureDistanceRect_symm_zero_pos ⟨2⟩ ⟨0, 0, 2, 2⟩ ⟨1, 1, 2, 2⟩).2.1
      (by norm_num [rectsOverlap, Rectangle.left, Rectangle.right, Rectangle.top,
        Rectangle.bottom]),
    (measureDistanceRect_symm_zero_pos ⟨2⟩ ⟨0, 0, 2, 2⟩ ⟨10, 0, 2, 2⟩).2.2
      (by norm_num [rectsDisjoint, Rectangle.left, Rectangle.right, Rectangle.top,
        Rectangle.bottom])
      (by norm_num)⟩

/-- C7: a combatant can never flank itself, and consequently the flankee
itself never qualifies as a flanking buddy in the candidate scan (its scan
clause is false). -/
theorem canFlank_self_false (cv : Canvas) (self flankee : Token) :
    canFlank cv flankee flankee = false ∧
      (decide (flankee ≠ self) && canFlank cv flankee flankee &&
        isAFlankingArrangement self flankee flankee) = false := by
  have h : canFlank cv flankee flankee = false := by
    unfold canFlank canFlankE
    rw [if_pos rfl]
    rfl
  exact ⟨h, by rw [h, Bool.and_false, Bool.false_and]⟩

/-- C9: any two combatants that can both flank the same flankee carry the
same player-allegiance flag (each must be on the opposite side of the
two-valued flag from the flankee, hence on the same side as each other). -/
theorem canFlank_buddies_same_allegiance (cv : Canvas) (A B F : Token)
    (hA : canFlank cv A F = true) (hB : canFlank cv B F = true) :
    hasPlayerAllegiance A = hasPlayerAllegiance B := by
  obtain ⟨-, -, -, hpa1, -⟩ := (canFlank_eq_true_iff cv A F).mp hA
  obtain ⟨-, -, -, hpa2, -⟩ := (canFlank_eq_true_iff cv B F).mp hB
  rw [hpa1, hpa2]

/-- C9 witness: two distinct player-owned tokens adjacent to the same
non-player flankee can both flank it, and indeed share their allegiance
flag. -/
theorem canFlank_buddies_same_allegiance_witness :
    canFlank ⟨some ⟨2⟩, 1, fun _ _ => 0, []⟩
        ⟨1, 0, 0, 4, 4, some ⟨"character", true, some true, true, 5⟩⟩
        ⟨3, 2, 0, 2, 2, some ⟨"npc", true, some false, true, 5⟩⟩ = true ∧
      hasPlayerAllegiance (⟨1, 0, 0, 4, 4, some ⟨"character", true, some true, true, 5⟩⟩ : Token) =
        hasPlayerAllegiance (⟨2, 0, 0, 4, 4, some ⟨"character", true, some true, true, 5⟩⟩ : Token) := by
  have hA : canFlank ⟨some ⟨2⟩, 1, fun _ _ => 0, []⟩
      ⟨1, 0, 0, 4, 4, some ⟨"character", true, some true, true, 5⟩⟩
      ⟨3, 2, 0, 2, 2, some ⟨"npc", true, some false, true, 5⟩⟩ = true := by
    norm_num [canFlank, canFlankE, actorTypeFlankCapable, actorIsCreature, geNaN, distanceTo,
      measureDistanceRect, tokenRect, rectsOverlapOrTouch, Rectangle.left, Rectangle.right,
      Rectangle.top, Rectangle.bottom, GRID_TYPES_SQUARE]
  have hB : canFlank ⟨some ⟨2⟩, 1, fun _ _ => 0, []⟩
      ⟨2, 0, 0, 4, 4, some ⟨"character", true, some true, true, 5⟩⟩
      ⟨3, 2, 0, 2, 2, some ⟨"npc", true, some false, true, 5⟩⟩ = true := by
    norm_num [canFlank, canFlankE, actorTypeFlankCapable, actorIsCreature, geNaN, distanceTo,
      measureDistanceRect, tokenRect, rectsOverlapOrTouch, Rectangle.left, Rectangle.right,
      Rectangle.top, Rectangle.bottom, GRID_TYPES_SQUARE]
  exact ⟨hA, canFlank_buddies_same_allegiance ⟨some ⟨2⟩, 1, fun _ _ => 0, []⟩ _ _
    ⟨3, 2, 0, 2, 2, some ⟨"npc", true, some false, true, 5⟩⟩ hA hB⟩

/-- C10: `canFlank` is total and never dereferences a missing actor: the
explicit embedding `canFlankE` always returns a verdict, and a missing
flanker actor, or a missing or non-creature flankee actor, yields a false
verdict through an early guard. -/
theorem canFlank_total_safe (cv : Canvas) (s f : Token) :
    (canFlankE cv s f).isSome = true ∧
      (s.actor = none → canFlank cv s f = false) ∧
      ((f.actor.map Actor.isCreature).getD false = false → canFlank cv s f = false) := by
  refine ⟨?_, ?_, ?_⟩
  · unfold canFlankE
    by_cases h1 : s = f
    · simp [h1]
    rw [if_neg h1]
    by_cases h2 : actorTypeFlankCapable s = true
    swap
    · rw [if_pos (by simp [Bool.not_eq_true] at h2 ⊢; exact h2)]
      rfl
    rw [if_neg (by simp [h2])]
    by_cases h3 : actorIsCreature f = true
    swap
    · rw [if_pos (by simp [Bool.not_eq_true] at h3 ⊢; exact h3)]
      rfl
    rw [if_neg (by simp [h3])]
    cases hsa : s.actor with
    | none => rw [actorTypeFlankCapable.eq_def, hsa] at h2; simp at h2
    | some sa =>
      cases hfa : f.actor with
      | none => rw [actorIsCreature.eq_def, hfa] at h3; simp at h3
      | some fa =>
        show (if (sa.hasPlayerOwner.getD false && fa.hasPlayerOwner.getD false ||
            !(sa.hasPlayerOwner.getD false || fa.hasPlayerOwner.getD false)) = true then
            some false
          else some (sa.canAttack && geNaN sa.reachAttack (distanceTo cv s f))).isSome = true
        split_ifs <;> rfl
  · intro h
    cases hb : canFlank cv s f with
    | false => rfl
    | true =>
      obtain ⟨-, hcap, -⟩ := (canFlank_eq_true_iff cv s f).mp hb
      rw [actorTypeFlankCapable.eq_def, h] at hcap
      simp at hcap
  · intro h
    cases hb : canFlank cv s f with
    | false => rfl
    | true =>
      obtain ⟨-, -, hcre, -⟩ := (canFlank_eq_true_iff cv s f).mp hb
      have heq : (f.actor.map Actor.isCreature).getD false = actorIsCreature f := by
        unfold actorIsCreature
        cases f.actor <;> rfl
      rw [heq, hcre] at h
      simp at h

/-- C10 witness: the embedding returns a verdict on a concrete pair, and a
token with no actor (or a flankee whose actor is absent) cannot flank or be
flanked. -/
theorem canFlank_total_safe_witness :
    (canFlankE ⟨some ⟨2⟩, 1, fun _ _ => 0, []⟩ ⟨1, 0, 0, 2, 2, none⟩
        ⟨2, 4, 0, 2, 2, some ⟨"npc", true, some false, true, 5⟩⟩).isSome = true ∧
      canFlank ⟨some ⟨2⟩, 1, fun _ _ => 0, []⟩ ⟨1, 0, 0, 2, 2, none⟩
        ⟨2, 4, 0, 2, 2, some ⟨"npc", true, some false, true, 5⟩⟩ = false ∧
      canFlank ⟨some ⟨2⟩, 1, fun _ _ => 0, []⟩
        ⟨1, 0, 0, 2, 2, some ⟨"character", true, some true, true, 5⟩⟩
        ⟨2, 4, 0, 2, 2, none⟩ = false :=
  ⟨(canFlank_total_safe ⟨some ⟨2⟩, 1, fun _ _ => 0, []⟩ ⟨1, 0, 0, 2, 2, none⟩
      ⟨2, 4, 0, 2, 2, some ⟨"npc", true, some false, true, 5⟩⟩).1,
    (canFlank_total_safe ⟨some ⟨2⟩, 1, fun _ _ => 0, []⟩ ⟨1, 0, 0, 2, 2, none⟩
      ⟨2, 4, 0, 2, 2, some ⟨"npc", true, some false, true, 5⟩⟩).2.1 rfl,
    (canFlank_total_safe ⟨some ⟨2⟩, 1, fun _ _ => 0, []⟩
      ⟨1, 0, 0, 2, 2, some ⟨"character", true, some true, true, 5⟩⟩
      ⟨2, 4, 0, 2, 2, none⟩).2.2 rfl⟩

/-- C1: `isFlanking` succeeds exactly when the evaluated token can flank the
flankee and some distinct placed token also can while standing on opposite
corners or opposite sides; with no candidate buddy (empty scene, or only the
evaluated token placed) it is false. -/
theorem isFlanking_characterization (cv : Canvas) (A F : Token) :
    (isFlanking cv A F = true ↔
      canFlank cv A F = true ∧
        ∃ B ∈ cv.placeables, B ≠ A ∧ canFlank cv B F = true ∧
          (areOnOppositeCorners A B F = true ∨ areOnOppositeSides A B F = true)) ∧
      (cv.placeables = [] ∨ cv.placeables = [A] → isFlanking cv A F = false) := by
  have hiff : isFlanking cv A F = true ↔
      canFlank cv A F = true ∧
        ∃ B ∈ cv.placeables, B ≠ A ∧ canFlank cv B F = true ∧
          (areOnOppositeCorners A B F = true ∨ areOnOppositeSides A B F = true) := by
    unfold isFlanking isAFlankingArrangement
    simp only [Bool.and_eq_true, List.any_eq_true, decide_eq_true_eq, Bool.or_eq_true]
    constructor
    · rintro ⟨h1, B, hmem, ⟨hne, hcf⟩, harr⟩
      exact ⟨h1, B, hmem, hne, hcf, harr⟩
    · rintro ⟨h1, B, hmem, hne, hcf, harr⟩
      exact ⟨h1, B, hmem, ⟨hne, hcf⟩, harr⟩
  refine ⟨hiff, fun h => ?_⟩
  cases hb : isFlanking cv A F with
  | false => rfl
  | true =>
    obtain ⟨-, B, hmem, hne, -⟩ := hiff.mp hb
    rcases h with h | h <;> rw [h] at hmem
    · simp at hmem
    · simp only [List.mem_singleton] at hmem
      exact absurd hmem hne

/-- C1 witness: on a canvas with no placed tokens, a token is not flanking. -/
theorem isFlanking_characterization_witness :
    isFlanking ⟨some ⟨2⟩, 1, fun _ _ => 0, []⟩
        ⟨1, 0, 0, 4, 4, some ⟨"character", true, some true, true, 5⟩⟩
        ⟨3, 2, 0, 2, 2, some ⟨"npc", true, some false, true, 5⟩⟩ = false :=
  (isFlanking_characterization ⟨some ⟨2⟩, 1, fun _ _ => 0, []⟩
    ⟨1, 0, 0, 4, 4, some ⟨"character", true, some true, true, 5⟩⟩
    ⟨3, 2, 0, 2, 2, some ⟨"npc", true, some false, true, 5⟩⟩).2 (Or.inl rfl)

end PF2e
